import Mathlib

/-!
Verification of the entitycoll repository's URL-to-operation resolution and
collection-query-filter parsing engine, against a shallow embedding of the
Go source (`entitycoll.go`).

Modelling conventions:
* Go strings are modelled as Lean `String`s operated on at the `Char` level
  (the source only manipulates ASCII literals, where Go's byte indexing and
  char indexing coincide).
* A Go slice expression `s[:n]` (resp. `s[n:]`) panics when `n > len(s)`;
  panics are modelled by `Option`: `none` is a panic, `some` a normal result.
* `uuid.FromString` from the external satori/go.uuid library is an external
  collaborator; it is modelled as an explicit parameter
  `parse : String → Option UUID` with `UUID := Nat` standing in for the
  opaque 128-bit value (the source only stores and compares UUIDs).
* Go's `map[string]uuid.UUID` is modelled as an association list with unique
  keys, `mapInsert` reproducing Go map assignment (overwrite or append).
  Go map iteration order is unspecified; the claims checked here do not
  depend on cross-key iteration order, which the list model fixes.
-/

namespace EntityColl

/-- Stand-in for the external library's 128-bit `uuid.UUID` value type;
only equality and storage are used by the source. -/
abbrev UUID := Nat

/-- Go slice expression `s[:n]`: defined when `n ≤ len(s)`, panic otherwise. -/
def takeGo (s : String) (n : Nat) : Option String :=
  if n ≤ s.data.length then some (String.mk (s.data.take n)) else none

/-- Go slice expression `s[n:]`: defined when `n ≤ len(s)`, panic otherwise. -/
def dropGo (s : String) (n : Nat) : Option String :=
  if n ≤ s.data.length then some (String.mk (s.data.drop n)) else none

/-- Accumulator worker for `goSplitOn`, mirroring Go's `strings.Split`
with a single-character separator. -/
def splitAux (delim : Char) : List Char → List Char → List String
  | [], acc => [String.mk acc.reverse]
  | c :: cs, acc =>
    if c = delim then String.mk acc.reverse :: splitAux delim cs []
    else splitAux delim cs (c :: acc)

/-- Go `strings.Split(s, delim)` for a one-character delimiter.
`goSplitOn '/' "" = [""]` and `goSplitOn '/' "/a" = ["", "a"]`, as in Go. -/
def goSplitOn (delim : Char) (s : String) : List String :=
  splitAux delim s.data []

/- Data model of `entitycoll.go` (`Order`, `SortObj`, `CompType`,
`PropFilterObj`, `CollFilter`). -/

inductive Order where
  | ASC
  | DESC
deriving DecidableEq, Repr

structure SortObj where
  SortOrder : Order
  FieldName : String
deriving DecidableEq, Repr

inductive CompType where
  | LT
  | LTEQ
  | EQ
  | GT
  | GTEQ
deriving DecidableEq, Repr

structure PropFilterObj where
  Comp : CompType
  FieldName : String
  Value : String
deriving DecidableEq, Repr

/-- `CollFilter`: `Page` models the Go `*int64` (None = nil), `Count` the
`*uint64`, `Sort` and `PropFilters` the two slices. -/
structure CollFilter where
  Page : Option Int
  Count : Option Nat
  «Sort» : List SortObj
  PropFilters : List PropFilterObj
deriving DecidableEq, Repr

/- Query-filter parsing (`popSort`, `popFilter`, `pop`). -/

/-- The body of `popSort`'s loop for one comma-separated element `ss`:
evaluates `ss[:4]`, possibly `ss[:5]`, in source order.  Outer `none` is a
Go panic (slice out of range); inner `none` is the warning branch (element
skipped). -/
def sortValue (ss : String) : Option (Option SortObj) :=
  (takeGo ss 4).bind (fun p4 =>
    if p4 = "asc." then
      (dropGo ss 4).map (fun f => some ⟨Order.ASC, f⟩)
    else
      (takeGo ss 5).bind (fun p5 =>
        if p5 = "desc." then
          (dropGo ss 5).map (fun f => some ⟨Order.DESC, f⟩)
        else some none))

/-- The loop of `popSort` over the comma-separated elements, appending the
recognized directives in order and propagating panics. -/
def sortLoop : List String → Option (List SortObj)
  | [] => some []
  | ss :: rest =>
    (sortValue ss).bind (fun o =>
      (sortLoop rest).map (fun tail =>
        match o with
        | some so => so :: tail
        | none => tail))

/-- `(cf *CollFilter) popSort(sortString)`: splits on `,` and processes each
element; returns the list of `SortObj` appended, `none` on panic. -/
def popSort (sortString : String) : Option (List SortObj) :=
  sortLoop (goSplitOn ',' sortString)

/-- The body of `popFilter`'s inner loop for key `k` and one value `v`:
the if/else-if chain over `v[:3]` and `v[:5]` in source order.  Note the
source stores the slice `v[:3]` / `v[:5]` (the comparator prefix itself)
in `Value`, not the remainder of the string. -/
def filterValue (k v : String) : Option (Option PropFilterObj) :=
  (takeGo v 3).bind (fun p3 =>
    if p3 = "lt." then some (some ⟨CompType.LT, k, p3⟩)
    else
      (takeGo v 5).bind (fun p5 =>
        if p5 = "lteq." then some (some ⟨CompType.LTEQ, k, p5⟩)
        else if p3 = "eq." then some (some ⟨CompType.EQ, k, p3⟩)
        else if p3 = "gt." then some (some ⟨CompType.GT, k, p3⟩)
        else if p5 = "gteq." then some (some ⟨CompType.GTEQ, k, p5⟩)
        else some none))

/-- `popFilter`'s inner loop over the value list of one key. -/
def filterValueLoop (k : String) : List String → Option (List PropFilterObj)
  | [] => some []
  | v :: rest =>
    (filterValue k v).bind (fun o =>
      (filterValueLoop k rest).map (fun tail =>
        match o with
        | some pf => pf :: tail
        | none => tail))

/-- `url.Values`: a multi-valued query map, modelled as an association
list processed in a fixed order. -/
abbrev Query := List (String × List String)

/-- `(cf *CollFilter) popFilter(filterQuery)`: the outer loop over the
remaining query keys. -/
def popFilter : Query → Option (List PropFilterObj)
  | [] => some []
  | (k, va) :: rest =>
    (filterValueLoop k va).bind (fun fs =>
      (popFilter rest).map (fun tail => fs ++ tail))

/-- Go map lookup `q[k]` on the query. -/
def qGet (q : Query) (k : String) : Option (List String) :=
  (q.find? (fun p => p.1 = k)).map Prod.snd

/-- Go `delete(q, k)`. -/
def qDelete (q : Query) (k : String) : Query :=
  q.filter (fun p => p.1 != k)

/-- One decimal digit. -/
def digitVal (c : Char) : Option Nat :=
  if '0' ≤ c ∧ c ≤ '9' then some (c.toNat - '0'.toNat) else none

/-- Accumulate decimal digits; `none` on any non-digit. -/
def digitsToNatAux : List Char → Nat → Option Nat
  | [], n => some n
  | c :: cs, n =>
    match digitVal c with
    | some d => digitsToNatAux cs (n * 10 + d)
    | none => none

/-- A non-empty all-digit run as a natural number. -/
def digitsToNat : List Char → Option Nat
  | [] => none
  | cs => digitsToNatAux cs 0

def maxInt64 : Int := 2 ^ 63 - 1
def minInt64 : Int := -(2 ^ 63)
def maxUint64 : Nat := 2 ^ 64 - 1

/-- Magnitude part of `strconv.ParseInt(s, 10, 64)`: returns the value Go
assigns and whether the error was nil (range errors clamp the value). -/
def parseIntMag (cs : List Char) (positive : Bool) : Int × Bool :=
  match digitsToNat cs with
  | none => (0, false)
  | some n =>
    if positive then
      if (n : Int) > maxInt64 then (maxInt64, false) else ((n : Int), true)
    else
      if (n : Int) > 2 ^ 63 then (minInt64, false) else (-(n : Int), true)

/-- `strconv.ParseInt(s, 10, 64)`: (value assigned, err == nil). -/
def parseIntGo (s : String) : Int × Bool :=
  match s.data with
  | [] => (0, false)
  | '+' :: rest => parseIntMag rest true
  | '-' :: rest => parseIntMag rest false
  | cs => parseIntMag cs true

/-- `strconv.ParseUint(s, 10, 64)`: (value assigned, err == nil); a sign
is a syntax error. -/
def parseUintGo (s : String) : Nat × Bool :=
  match digitsToNat s.data with
  | none => (0, false)
  | some n => if n > maxUint64 then (maxUint64, false) else (n, true)

/-- The `page` block of `pop`: on key present, `pageS[0]` (panic when the
value slice is empty) is parsed and the result is assigned to `cf.Page`
unconditionally — also when parsing failed (then `page` is Go's zero/clamped
value and only a warning is logged). -/
def popPage : Option (List String) → Option (Option Int)
  | none => some none
  | some vs => vs.head?.map (fun s => some (parseIntGo s).1)

/-- The `count` block of `pop`, same shape as `popPage`. -/
def popCount : Option (List String) → Option (Option Nat)
  | none => some none
  | some vs => vs.head?.map (fun s => some (parseUintGo s).1)

/-- The `sort` block of `pop`. -/
def popSortField : Option (List String) → Option (List SortObj)
  | none => some []
  | some vs => vs.head?.bind popSort

/-- `(cf *CollFilter) pop(r)`: processes `page`, `count`, `sort`, then the
remaining keys as property filters.  The Go function's only `return`
statement is `return nil`, modelled by the second component being `none`;
an outer `none` is a panic inside one of the blocks. -/
def pop (q : Query) : Option (CollFilter × Option Unit) :=
  match popPage (qGet q "page") with
  | none => none
  | some pageField =>
    let q1 := qDelete q "page"
    match popCount (qGet q1 "count") with
    | none => none
    | some countField =>
      let q2 := qDelete q1 "count"
      match popSortField (qGet q2 "sort") with
      | none => none
      | some sortList =>
        let q3 := qDelete q2 "sort"
        match popFilter q3 with
        | none => none
        | some pfs => some (⟨pageField, countField, sortList, pfs⟩, none)

/- Identifier-path parsing (`getPathComponentUuids`) and its error types
(`pathComponentError`, `parseUUIDError`). -/

/-- The two error values of `getPathComponentUuids`:
`pathComponentError` carries the offending path, `parseUUIDError` the name
segment preceding the first malformed identifier. -/
inductive PathError where
  | pathComponentError (path : String)
  | parseUUIDError (pathComponent : String)
deriving DecidableEq, Repr

/-- Go's `map[string]uuid.UUID`, as an association list with unique keys. -/
abbrev UuidMap := List (String × UUID)

/-- Go map assignment `m[k] = v`: overwrite the existing binding or append. -/
def mapInsert : UuidMap → String → UUID → UuidMap
  | [], k, v => [(k, v)]
  | (k', v') :: rest, k, v =>
    if k' = k then (k, v) :: rest else (k', v') :: mapInsert rest k v

/-- The pair loop of `getPathComponentUuids`
(`for i := 0; i < len(pathComponents)-1; i += 2`): consumes
(name, identifier) pairs, leaving a lone trailing component untouched;
on the first identifier that fails to parse it returns the empty map and
a `parseUUIDError` naming the preceding component. -/
def pairLoop (parse : String → Option UUID) :
    List String → UuidMap → UuidMap × Option PathError
  | [], m => (m, none)
  | [_], m => (m, none)
  | n :: u :: rest, m =>
    match parse u with
    | some v => pairLoop parse rest (mapInsert m n v)
    | none => ([], some (.parseUUIDError n))

/-- `getPathComponentUuids(path)`: splits the path on `/`, drops the first
component (`strings.Split(path, "/")[1:]`), rejects even component counts
with a `pathComponentError`, and otherwise runs the pair loop on an empty
map. -/
def getPathComponentUuids (parse : String → Option UUID) (path : String) :
    UuidMap × Option PathError :=
  let pathComponents := (goSplitOn '/' path).drop 1
  if pathComponents.length % 2 ≠ 1 then ([], some (.pathComponentError path))
  else pairLoop parse pathComponents []

/- HTTP status constants used by the handlers. -/

def statusBadRequest : Nat := 400
def statusNotFound : Nat := 404
def statusInternalServerError : Nat := 500

/-- The path-processing front end of `getPluralHandler`: on success the
parent map is passed on; the error switch maps `pathComponentError` and
`parseUUIDError` to `http.StatusNotFound` (the `default` branch's 500 is
for error types that cannot occur). -/
def pluralPathOutcome (parse : String → Option UUID) (path : String) :
    UuidMap ⊕ Nat :=
  match getPathComponentUuids parse path with
  | (m, none) => .inl m
  | (_, some (.pathComponentError _)) => .inr statusNotFound
  | (_, some (.parseUUIDError _)) => .inr statusNotFound

/-- The UUID-extraction front end of `getSingularHandler`: takes the last
of `strings.Split(r.URL.Path, "/")[1:]` (outer `none` models the Go index
panic on an empty slice) and on parse failure responds with
`http.StatusBadRequest`. -/
def singularUuidOutcome (parse : String → Option UUID) (path : String) :
    Option (UUID ⊕ Nat) :=
  match ((goSplitOn '/' path).drop 1).getLast? with
  | none => none
  | some c =>
    match parse c with
    | none => some (.inr statusBadRequest)
    | some v => some (.inl v)

/- Route resolution (`CreateApiObject` registrations + `RootApiHandler`). -/

/-- Which registered handler a mux lookup hits: the plural handler is
registered under pattern `"/name"`, the singular handler under
`"/name/"`. -/
inductive MuxTarget where
  | plural (name : String)
  | singular (name : String)
deriving DecidableEq, Repr

/-- Char-level string prefix test (structural, so it evaluates in the
kernel). -/
def leadsString : List Char → List Char → Bool
  | [], _ => true
  | _ :: _, [] => false
  | c :: cs, d :: ds => c = d && leadsString cs ds

/-- `entityServeMux.Handler` for the patterns registered by
`CreateApiObject`: the exact pattern `"/name"` matches only the identical
path; the trailing-slash pattern `"/name/"` matches any path it prefixes
(for these pattern shapes the exact match is always the longer one). -/
def muxLookup (colls : List String) (p : String) : Option MuxTarget :=
  match colls.find? (fun n => p = "/" ++ n) with
  | some n => some (.plural n)
  | none =>
    match colls.find? (fun n => leadsString ("/" ++ n ++ "/").data p.data) with
    | some n => some (.singular n)
    | none => none

/-- Second-to-last element of a list (`pathComponents[len-2]`). -/
def secondLast (l : List String) : Option String :=
  (l.reverse.drop 1).head?

/-- The hypothesis sequence of `RootApiHandler`: first the final path
component as a bare collection name (plural pattern), then the
second-to-last component with a trailing slash (singular pattern), else
not-found.  Outer `none` models the Go index panic when the path has
fewer than two components. -/
def rootDispatch (colls : List String) (path : String) :
    Option (Option MuxTarget) :=
  let pathComponents := goSplitOn '/' path
  match pathComponents.getLast? with
  | none => none
  | some lastC =>
    match muxLookup colls ("/" ++ lastC) with
    | some t => some (some t)
    | none =>
      match secondLast pathComponents with
      | none => none
      | some name2 =>
        match muxLookup colls ("/" ++ name2 ++ "/") with
        | some t => some (some t)
        | none => some none

/-- Result of resolving and front-end parsing a request path. -/
inductive RouteOutcome where
  | plural (name : String) (parents : UuidMap)
  | pluralErr (status : Nat)
  | singular (name : String) (id : UUID)
  | singularErr (status : Nat)
  | notFound
  | panic
deriving DecidableEq, Repr

/-- `RootApiHandler` composed with the path-parsing front end of the
selected handler (the original path is restored before dispatch, as in the
source). -/
def resolveRoute (parse : String → Option UUID) (colls : List String)
    (path : String) : RouteOutcome :=
  match rootDispatch colls path with
  | none => .panic
  | some none => .notFound
  | some (some (.plural n)) =>
    match pluralPathOutcome parse path with
    | .inl m => .plural n m
    | .inr s => .pluralErr s
  | some (some (.singular n)) =>
    match singularUuidOutcome parse path with
    | none => .panic
    | some (.inr s) => .singularErr s
    | some (.inl v) => .singular n v

/- The filter-parse step of `getPluralHandler`'s GET branch. -/

/-- Whether the `"error parsing collection filters"` bad-request branch of
`getPluralHandler`'s GET case is taken (`some true`), not taken
(`some false`), or `pop` panicked (`none`). -/
def pluralGetFilterBranch (q : Query) : Option Bool :=
  (pop q).map (fun r => r.2.isSome)

/- CORS wrapper (`applyCorsHeaders`). -/

/-- Externally visible effect of one call to the handler returned by
`applyCorsHeaders`: the response headers it adds and whether it invokes
the wrapped handler. -/
structure CorsOutcome where
  headers : List (String × String)
  callsInner : Bool
deriving DecidableEq, Repr

/-- `applyCorsHeaders` as a function of the request method: `OPTIONS` gets
the preflight headers and no inner call; `GET`/`PUT`/`POST`/`DELETE` get
the CORS headers and the inner call; any other method falls through the
if/else-if chain, returning with no header written and no inner call. -/
def applyCorsHeaders (method : String) : CorsOutcome :=
  if method = "OPTIONS" then
    ⟨[("Access-Control-Allow-Origin", "http://localhost:8090"),
      ("Access-Control-Allow-Headers", "Authorization"),
      ("Access-Control-Allow-Methods", "GET, PUT, POST, DELETE")], false⟩
  else if method = "GET" ∨ method = "PUT" ∨ method = "POST" ∨
      method = "DELETE" then
    ⟨[("Access-Control-Allow-Origin", "http://localhost:8090"),
      ("Access-Control-Expose-Headers", "Location")], true⟩
  else ⟨[], false⟩

/- Concrete instantiation of the external UUID parser for witnesses:
a tiny stand-in that recognizes a single canonical UUID string. -/

def sampleUuidStr : String := "6ba7b810-9dad-11d1-80b4-00c04fd430c8"

/-- Test stand-in for the external `uuid.FromString` collaborator. -/
def sampleParse : String → Option UUID :=
  fun s => if s = sampleUuidStr then some 1 else none

/-! ## Claim theorems -/

/-- C1 (code_bug): evaluating `popFilter` at the claim's own example — query
key `"status"` with value `"eq.active"` — the appended `PropFilterObj` has
`Value = "eq."`, the comparator prefix itself, because the source stores the
slice `v[:3]` where the remainder `v[3:]` (`"active"`) was intended; the
neighbouring `popSort` stores the remainder correctly, and the spec requires
the remainder. -/
theorem popFilter_stores_comparator_prefix_as_value :
    popFilter [("status", ["eq.active"])] =
      some [{ Comp := CompType.EQ, FieldName := "status", Value := "eq." }] := by
  decide

/-- C2 (code_bug): query-filter parsing is not total.  On sort element
`"a"` the expression `ss[:4]` and on property-filter value `"a"` the
expression `v[:3]` slice beyond the string's length, which panics in Go
(modelled by `none`), contradicting the spec's policy that unparsable
values only warn and never fail the request. -/
theorem pop_panics_on_short_values :
    pop [("sort", ["a"])] = none ∧ pop [("status", ["a"])] = none := by
  decide

/-- C3 (code_bug): when the first `page` value does not parse as a signed
integer and the first `count` value does not parse as an unsigned integer,
`pop` still assigns both fields: after the failed `strconv` calls the Go
zero value is stored through `cf.Page = &page` / `cf.Count = &count`, so
the fields are pointers to 0, not nil as the spec requires. -/
theorem pop_sets_page_and_count_to_zero_on_parse_failure :
    pop [("page", ["abc"]), ("count", ["xyz"])] =
      some ({ Page := some 0, Count := some 0, «Sort» := [],
              PropFilters := [] }, none) := by
  decide

/-- C5 (confirmed): with collection `"widgets"` registered, `RootApiHandler`
tries the plural hypothesis (exact pattern `"/widgets"`) first and the
singular hypothesis (prefix pattern `"/widgets/"`) second: path `"/widgets"`
dispatches to the plural handler, whose path parse yields an empty parent
map; path `"/widgets/<uuid>"` fails the plural lookup and dispatches to the
singular handler for that identifier; path `"/unknown"` matches neither
hypothesis and is not-found. -/
theorem resolveRoute_widgets_examples :
    resolveRoute sampleParse ["widgets"] "/widgets" =
        RouteOutcome.plural "widgets" []
    ∧ resolveRoute sampleParse ["widgets"] ("/widgets/" ++ sampleUuidStr) =
        RouteOutcome.singular "widgets" 1
    ∧ resolveRoute sampleParse ["widgets"] "/unknown" =
        RouteOutcome.notFound := by
  decide

/-- C10 (confirmed): for any request method outside
{OPTIONS, GET, PUT, POST, DELETE}, the handler produced by
`applyCorsHeaders` falls through its if/else-if chain: it adds no response
header and never invokes the wrapped (security + entity) handler. -/
theorem applyCorsHeaders_other_method_no_effect (m : String)
    (h : m ≠ "OPTIONS" ∧ m ≠ "GET" ∧ m ≠ "PUT" ∧ m ≠ "POST" ∧
         m ≠ "DELETE") :
    applyCorsHeaders m = ⟨[], false⟩ := by
  unfold applyCorsHeaders
  rw [if_neg h.1, if_neg]
  intro hc
  rcases hc with hc | hc | hc | hc
  · exact h.2.1 hc
  · exact h.2.2.1 hc
  · exact h.2.2.2.1 hc
  · exact h.2.2.2.2 hc

/-- Witness for C10 at the concrete method `"PATCH"`. -/
theorem applyCorsHeaders_patch_witness :
    applyCorsHeaders "PATCH" = ⟨[], false⟩ :=
  applyCorsHeaders_other_method_no_effect "PATCH" (by decide)

/-- Slicing `p ++ s` up to a bound inside `p` only sees `p`. -/
theorem takeGo_append_left (p s : String) (n : Nat) (hn : n ≤ p.data.length) :
    takeGo (p ++ s) n = some (String.mk (p.data.take n)) := by
  unfold takeGo
  rw [String.data_append, if_pos (by rw [List.length_append]; omega),
      List.take_append_of_le_length hn]

/-- C6 (confirmed): the comparator-prefix if/else-if chain classifies every
value beginning with `"gteq."` as `GTEQ` (never `GT`, because `v[:3]` is
then `"gte"`, which differs from `"gt."`) and every value beginning with
`"lteq."` as `LTEQ` (never `LT`, because `v[:3]` is then `"lte"`). -/
theorem popFilter_most_specific_comparator_wins (k s : String) :
    filterValue k ("gteq." ++ s) =
        some (some ⟨CompType.GTEQ, k, "gteq."⟩)
    ∧ filterValue k ("lteq." ++ s) =
        some (some ⟨CompType.LTEQ, k, "lteq."⟩) := by
  constructor
  · unfold filterValue
    rw [takeGo_append_left "gteq." s 3 (by decide)]
    rw [show String.mk ("gteq.".data.take 3) = "gte" from rfl]
    rw [Option.some_bind, if_neg (by decide)]
    rw [takeGo_append_left "gteq." s 5 (by decide)]
    rw [show String.mk ("gteq.".data.take 5) = "gteq." from rfl]
    rw [Option.some_bind, if_neg (by decide), if_neg (by decide),
        if_neg (by decide), if_pos rfl]
  · unfold filterValue
    rw [takeGo_append_left "lteq." s 3 (by decide)]
    rw [show String.mk ("lteq.".data.take 3) = "lte" from rfl]
    rw [Option.some_bind, if_neg (by decide)]
    rw [takeGo_append_left "lteq." s 5 (by decide)]
    rw [show String.mk ("lteq.".data.take 5) = "lteq." from rfl]
    rw [Option.some_bind, if_pos rfl]

/- Infrastructure for reasoning about `getPathComponentUuids`: a
well-shaped component list is described by (name, identifierString,
parsedValue) triples. -/

/-- Interleave (name, identifier) pairs into a component list. -/
def pairsFlat : List (String × String) → List String
  | [] => []
  | p :: ps => p.1 :: p.2 :: pairsFlat ps

/-- The (name, identifierString) projection of a triple list. -/
def triPairs (ts : List (String × String × UUID)) : List (String × String) :=
  ts.map (fun t => (t.1, t.2.1))

/-- The (name, parsedValue) projection of a triple list: the map the
parser is expected to build. -/
def triEntries (ts : List (String × String × UUID)) : UuidMap :=
  ts.map (fun t => (t.1, t.2.2))

/-- Go map assignment applied along a list of entries. -/
def insertAll : UuidMap → List (String × UUID) → UuidMap
  | m, [] => m
  | m, (k, v) :: rest => insertAll (mapInsert m k v) rest

theorem pairsFlat_length : ∀ ps : List (String × String),
    (pairsFlat ps).length = 2 * ps.length
  | [] => rfl
  | _ :: ps => by
    simp only [pairsFlat, List.length_cons, pairsFlat_length ps]
    omega

/-- Whenever `pairLoop` reports an error, the accompanying map is empty. -/
theorem pairLoop_err_empty (parse : String → Option UUID) :
    ∀ (pc : List String) (m : UuidMap),
      ((pairLoop parse pc m).2).isSome → (pairLoop parse pc m).1 = []
  | [], m, h => by simp [pairLoop] at h
  | [_], m, h => by simp [pairLoop] at h
  | n :: u :: rest, m, h => by
    simp only [pairLoop] at h ⊢
    cases hp : parse u with
    | none => simp [hp]
    | some v =>
      rw [hp] at h
      exact pairLoop_err_empty parse rest (mapInsert m n v) h

/-- `pairLoop` on components whose leading pairs all parse and whose next
identifier fails stops there with the empty map and the name of the
offending pair. -/
theorem pairLoop_first_bad (parse : String → Option UUID) :
    ∀ (good : List (String × String × UUID)) (n u : String)
      (rest : List String) (m : UuidMap),
      (∀ t ∈ good, parse t.2.1 = some t.2.2) → parse u = none →
      pairLoop parse (pairsFlat (triPairs good) ++ n :: u :: rest) m =
        ([], some (.parseUUIDError n))
  | [], n, u, rest, m, _, hu => by
    simp [triPairs, pairsFlat, pairLoop, hu]
  | t :: good, n, u, rest, m, hg, hu => by
    have ht : parse t.2.1 = some t.2.2 := hg t (List.mem_cons_self t good)
    simp only [triPairs, List.map_cons, pairsFlat, List.cons_append, pairLoop,
      ht]
    exact pairLoop_first_bad parse good n u rest (mapInsert m t.1 t.2.2)
      (fun a ha => hg a (List.mem_cons_of_mem t ha)) hu

/-- `pairLoop` on fully parsing components (with a lone trailing component
or none) succeeds and builds the map by successive Go map assignments. -/
theorem pairLoop_all_ok (parse : String → Option UUID) :
    ∀ (ts : List (String × String × UUID)) (tail : List String)
      (m : UuidMap),
      (∀ t ∈ ts, parse t.2.1 = some t.2.2) → tail.length ≤ 1 →
      pairLoop parse (pairsFlat (triPairs ts) ++ tail) m =
        (insertAll m (triEntries ts), none)
  | [], tail, m, _, htail => by
    simp only [triPairs, triEntries, List.map_nil, pairsFlat,
      List.nil_append, insertAll]
    match tail, htail with
    | [], _ => rfl
    | [_], _ => rfl
  | t :: ts, tail, m, hg, htail => by
    have ht : parse t.2.1 = some t.2.2 := hg t (List.mem_cons_self t ts)
    simp only [triPairs, triEntries, List.map_cons, pairsFlat,
      List.cons_append, pairLoop, ht, insertAll]
    exact pairLoop_all_ok parse ts tail (mapInsert m t.1 t.2.2)
      (fun a ha => hg a (List.mem_cons_of_mem t ha)) htail

/-- C4 (confirmed): `getPathComponentUuids` returns the empty map together
with an error exactly on malformed paths.  (i) An even component count
(after dropping the first split component) yields the empty map and
`pathComponentError` carrying the path.  (ii) On an odd count whose leading
pairs parse but whose next identifier `u` does not, it stops there,
yielding the empty map and `parseUUIDError` carrying the preceding name
segment `n`.  (iii) Whenever an error is returned the map is empty — never
partial.  (iv) Conversely, a well-shaped path whose identifiers all parse
yields no error. -/
theorem getPathComponentUuids_error_behaviour :
    (∀ (parse : String → Option UUID) (path : String),
        ((goSplitOn '/' path).drop 1).length % 2 = 0 →
        getPathComponentUuids parse path =
          ([], some (.pathComponentError path)))
    ∧ (∀ (parse : String → Option UUID) (path : String)
        (good : List (String × String × UUID)) (n u : String)
        (rest : List String),
        (goSplitOn '/' path).drop 1 =
          pairsFlat (triPairs good) ++ n :: u :: rest →
        (∀ t ∈ good, parse t.2.1 = some t.2.2) →
        parse u = none →
        ((goSplitOn '/' path).drop 1).length % 2 = 1 →
        getPathComponentUuids parse path = ([], some (.parseUUIDError n)))
    ∧ (∀ (parse : String → Option UUID) (path : String),
        ((getPathComponentUuids parse path).2).isSome →
        (getPathComponentUuids parse path).1 = [])
    ∧ (∀ (parse : String → Option UUID) (path : String)
        (good : List (String × String × UUID)) (t : String),
        (goSplitOn '/' path).drop 1 = pairsFlat (triPairs good) ++ [t] →
        (∀ a ∈ good, parse a.2.1 = some a.2.2) →
        (getPathComponentUuids parse path).2 = none) := by
  refine ⟨?_, ?_, ?_, ?_⟩
  · intro parse path h
    unfold getPathComponentUuids
    rw [if_pos (by omega)]
  · intro parse path good n u rest hdec hg hu hodd
    unfold getPathComponentUuids
    rw [if_neg (by omega)]
    rw [hdec]
    exact pairLoop_first_bad parse good n u rest [] hg hu
  · intro parse path h
    unfold getPathComponentUuids at h ⊢
    by_cases hc : ((goSplitOn '/' path).drop 1).length % 2 ≠ 1
    · rw [if_pos hc]
    · rw [if_neg hc] at h ⊢
      exact pairLoop_err_empty parse _ [] h
  · intro parse path good t hdec hg
    unfold getPathComponentUuids
    have hlen : ((goSplitOn '/' path).drop 1).length % 2 = 1 := by
      rw [hdec, List.length_append, pairsFlat_length]
      simp only [List.length_singleton]
      omega
    rw [if_neg (by omega), hdec,
      pairLoop_all_ok parse good [t] [] hg (by simp)]

/-- Witness for C4: conjunct (i) at the even-count path `"/foo/bar"` and
conjunct (ii) at `"/foo/zzz/t"`, whose identifier `"zzz"` is not a UUID. -/
theorem getPathComponentUuids_error_witness :
    getPathComponentUuids sampleParse "/foo/bar" =
        ([], some (.pathComponentError "/foo/bar"))
    ∧ getPathComponentUuids sampleParse "/foo/zzz/t" =
        ([], some (.parseUUIDError "foo")) :=
  ⟨getPathComponentUuids_error_behaviour.1 sampleParse "/foo/bar" (by decide),
   getPathComponentUuids_error_behaviour.2.1 sampleParse "/foo/zzz/t" []
     "foo" "zzz" ["t"] (by decide) (by simp) (by decide) (by decide)⟩

/- Path construction and splitting, for the round-trip claim. -/

/-- Build the plural path `/(name/identifier)*/term` from (name,
identifierString) pairs. -/
def buildPath : List (String × String) → String → String
  | [], term => "/" ++ term
  | p :: ps, term => "/" ++ p.1 ++ "/" ++ p.2 ++ buildPath ps term

theorem splitAux_cons_ne (delim c : Char) (cs acc : List Char)
    (h : ¬ c = delim) :
    splitAux delim (c :: cs) acc = splitAux delim cs (c :: acc) := by
  rw [show splitAux delim (c :: cs) acc =
      if c = delim then String.mk acc.reverse :: splitAux delim cs []
      else splitAux delim cs (c :: acc) from rfl, if_neg h]

theorem splitAux_cons_eq (delim : Char) (cs acc : List Char) :
    splitAux delim (delim :: cs) acc =
      String.mk acc.reverse :: splitAux delim cs [] := by
  rw [show splitAux delim (delim :: cs) acc =
      if delim = delim then String.mk acc.reverse :: splitAux delim cs []
      else splitAux delim cs (delim :: acc) from rfl, if_pos rfl]

theorem splitAux_no_delim (delim : Char) :
    ∀ (l acc : List Char), delim ∉ l →
      splitAux delim l acc = [String.mk (acc.reverse ++ l)]
  | [], acc, _ => by simp [splitAux]
  | c :: cs, acc, h => by
    rw [splitAux_cons_ne delim c cs acc
      (fun hc => h (by rw [hc]; exact List.mem_cons_self delim cs))]
    rw [splitAux_no_delim delim cs (c :: acc)
      (fun hm => h (List.mem_cons_of_mem c hm))]
    simp

theorem splitAux_delim_append (delim : Char) :
    ∀ (l₁ l₂ acc : List Char), delim ∉ l₁ →
      splitAux delim (l₁ ++ delim :: l₂) acc =
        String.mk (acc.reverse ++ l₁) :: splitAux delim l₂ []
  | [], l₂, acc, _ => by
    rw [List.nil_append, splitAux_cons_eq]
    simp
  | c :: cs, l₂, acc, h => by
    rw [List.cons_append]
    rw [splitAux_cons_ne delim c _ acc
      (fun hc => h (by rw [hc]; exact List.mem_cons_self delim cs))]
    rw [splitAux_delim_append delim cs l₂ (c :: acc)
      (fun hm => h (List.mem_cons_of_mem c hm))]
    simp

/-- Every built path starts with a slash. -/
theorem buildPath_head : ∀ (ps : List (String × String)) (term : String),
    ∃ tl, (buildPath ps term).data = '/' :: tl
  | [], term => ⟨term.data, by
      simp only [buildPath, String.data_append]
      rfl⟩
  | p :: ps, term => ⟨p.1.data ++ "/".data ++ p.2.data ++
      (buildPath ps term).data, by
      simp only [buildPath, String.data_append, List.append_assoc]
      rfl⟩

/-- Splitting a built path yields the leading empty component, the
interleaved pairs, and the terminal name. -/
theorem goSplitOn_buildPath : ∀ (ps : List (String × String)) (term : String),
    (∀ p ∈ ps, '/' ∉ p.1.data ∧ '/' ∉ p.2.data) → '/' ∉ term.data →
    goSplitOn '/' (buildPath ps term) = "" :: (pairsFlat ps ++ [term])
  | [], term, _, hterm => by
    unfold goSplitOn
    rw [show (buildPath [] term).data = '/' :: term.data from by
      simp only [buildPath, String.data_append]; rfl]
    rw [splitAux_cons_eq]
    rw [splitAux_no_delim '/' term.data [] hterm]
    simp [pairsFlat]
  | p :: ps, term, hps, hterm => by
    obtain ⟨tl, htl⟩ := buildPath_head ps term
    have hIH := goSplitOn_buildPath ps term
      (fun a ha => hps a (List.mem_cons_of_mem p ha)) hterm
    unfold goSplitOn at hIH
    rw [htl, splitAux_cons_eq] at hIH
    have htail : splitAux '/' tl [] = pairsFlat ps ++ [term] := by
      injection hIH
    unfold goSplitOn
    rw [show (buildPath (p :: ps) term).data =
        '/' :: (p.1.data ++ '/' :: (p.2.data ++ '/' :: tl)) from by
      simp only [buildPath, String.data_append, List.append_assoc, htl]
      rfl]
    rw [splitAux_cons_eq]
    rw [splitAux_delim_append '/' p.1.data _ []
      (hps p (List.mem_cons_self p ps)).1]
    rw [splitAux_delim_append '/' p.2.data tl []
      (hps p (List.mem_cons_self p ps)).2]
    rw [htail]
    simp [pairsFlat]

/-- Go map assignment with a fresh key appends the binding. -/
theorem mapInsert_fresh : ∀ (m : UuidMap) (k : String) (v : UUID),
    k ∉ m.map Prod.fst → mapInsert m k v = m ++ [(k, v)]
  | [], _, _, _ => rfl
  | (k', v') :: rest, k, v, h => by
    unfold mapInsert
    rw [if_neg (fun he => h (by rw [he]; exact List.mem_cons_self k _))]
    rw [mapInsert_fresh rest k v (fun hm => h (List.mem_cons_of_mem k' hm))]
    rfl

/-- Assigning a list of entries with pairwise-distinct keys, all fresh for
the map, appends them in order. -/
theorem insertAll_fresh : ∀ (es : List (String × UUID)) (m : UuidMap),
    (es.map Prod.fst).Nodup → (∀ e ∈ es, e.1 ∉ m.map Prod.fst) →
    insertAll m es = m ++ es
  | [], m, _, _ => by simp [insertAll]
  | (k, v) :: es, m, hnd, hf => by
    unfold insertAll
    rw [mapInsert_fresh m k v (hf (k, v) (List.mem_cons_self (k, v) es))]
    rw [insertAll_fresh es (m ++ [(k, v)]) (by
        simpa using hnd.of_cons)
      (by
        intro e he
        rw [List.map_append, List.mem_append]
        rintro (hm | hm)
        · exact hf e (List.mem_cons_of_mem (k, v) he) hm
        · simp only [List.map_cons, List.map_nil, List.mem_singleton] at hm
          rw [List.map_cons] at hnd
          have hmem : e.1 ∈ List.map Prod.fst es :=
            List.mem_map_of_mem Prod.fst he
          rw [hm] at hmem
          exact (List.nodup_cons.mp hnd).1 hmem)]
    simp

/-- C7 counterexample: the claim's first half fails without a distinctness
requirement on parent names.  The shape-valid plural path
`/a/<uuid>/a/<uuid>/t` has N = 2 parent (name, identifier) pairs, every
identifier parses, yet the Go map collapses the repeated key `"a"` and
`getPathComponentUuids` produces a 1-entry map, not 2. -/
theorem getPathComponentUuids_duplicate_name_counterexample :
    getPathComponentUuids sampleParse
        ("/a/" ++ sampleUuidStr ++ "/a/" ++ sampleUuidStr ++ "/t") =
      ([("a", 1)], none)
    ∧ (getPathComponentUuids sampleParse
        ("/a/" ++ sampleUuidStr ++ "/a/" ++ sampleUuidStr ++ "/t")).1.length
        ≠ 2 := by
  decide

/-- C7 (corrected, amended): for every valid plural path built from N
parent (name, identifier) pairs with pairwise-distinct, slash-free,
parsable names/identifiers plus a slash-free terminal name,
`getPathComponentUuids` succeeds with a map of exactly those N entries —
so constructing the path from any ordering of a map's pairs and re-parsing
it yields the original map (the distinctness hypothesis is forced by the
counterexample above). -/
theorem getPathComponentUuids_roundtrip (parse : String → Option UUID)
    (ts : List (String × String × UUID)) (term : String)
    (hparse : ∀ t ∈ ts, parse t.2.1 = some t.2.2)
    (hnames : (ts.map (fun t => t.1)).Nodup)
    (hn : ∀ t ∈ ts, '/' ∉ t.1.data)
    (hu : ∀ t ∈ ts, '/' ∉ t.2.1.data)
    (hterm : '/' ∉ term.data) :
    getPathComponentUuids parse (buildPath (triPairs ts) term) =
        (triEntries ts, none)
    ∧ (getPathComponentUuids parse (buildPath (triPairs ts) term)).1.length
        = ts.length := by
  have hsplit : goSplitOn '/' (buildPath (triPairs ts) term) =
      "" :: (pairsFlat (triPairs ts) ++ [term]) := by
    refine goSplitOn_buildPath (triPairs ts) term ?_ hterm
    intro p hp
    simp only [triPairs, List.mem_map] at hp
    obtain ⟨t, ht, rfl⟩ := hp
    exact ⟨hn t ht, hu t ht⟩
  have hmain : getPathComponentUuids parse (buildPath (triPairs ts) term) =
      (triEntries ts, none) := by
    unfold getPathComponentUuids
    rw [hsplit]
    rw [show ("" :: (pairsFlat (triPairs ts) ++ [term])).drop 1 =
      pairsFlat (triPairs ts) ++ [term] from rfl]
    rw [if_neg (by
      rw [List.length_append, pairsFlat_length]
      simp only [List.length_singleton]
      omega)]
    rw [pairLoop_all_ok parse ts [term] [] hparse (by simp)]
    rw [insertAll_fresh (triEntries ts) [] (by
        simp only [triEntries, List.map_map]
        exact hnames)
      (by intro e _ hm; simp at hm)]
    rw [List.nil_append]
  refine ⟨hmain, ?_⟩
  rw [hmain]
  simp [triEntries]

/-- Witness for the amended C7 at one concrete pair
(`"a"`, the sample UUID) and terminal name `"t"`. -/
theorem getPathComponentUuids_roundtrip_witness :
    getPathComponentUuids sampleParse
        (buildPath (triPairs [("a", (sampleUuidStr, 1))]) "t") =
      ([("a", 1)], none) :=
  (getPathComponentUuids_roundtrip sampleParse [("a", (sampleUuidStr, 1))]
    "t"
    (by intro t ht; rw [List.mem_singleton] at ht; subst ht; decide)
    (by simp)
    (by intro t ht; rw [List.mem_singleton] at ht; subst ht; decide)
    (by intro t ht; rw [List.mem_singleton] at ht; subst ht; decide)
    (by decide)).1

/-- C8 counterexample: a malformed terminal identifier on a singular path
is answered with `http.StatusBadRequest` (400) by `getSingularHandler`,
not with the claimed not-found classification (404): for path
`"/widgets/zzz"` the handler writes status 400. -/
theorem singular_bad_uuid_is_bad_request :
    singularUuidOutcome sampleParse "/widgets/zzz" =
        some (.inr statusBadRequest)
    ∧ statusBadRequest ≠ statusNotFound := by
  decide

/-- C8 (corrected, amended): a malformed parent identifier on a plural
path is mapped by `getPluralHandler` to `http.StatusNotFound` (the
not-found class, as claimed), but a malformed terminal identifier on a
singular path is mapped by `getSingularHandler` to
`http.StatusBadRequest` — not a not-found classification. -/
theorem malformed_uuid_status_by_handler :
    (∀ (parse : String → Option UUID) (path n : String),
        (getPathComponentUuids parse path).2 =
          some (.parseUUIDError n) →
        pluralPathOutcome parse path = .inr statusNotFound)
    ∧ (∀ (parse : String → Option UUID) (path c : String),
        ((goSplitOn '/' path).drop 1).getLast? = some c →
        parse c = none →
        singularUuidOutcome parse path =
          some (.inr statusBadRequest)) := by
  constructor
  · intro parse path n h
    unfold pluralPathOutcome
    rcases hr : getPathComponentUuids parse path with ⟨m, e⟩
    rw [hr] at h
    simp only at h
    rw [h]
  · intro parse path c h1 h2
    unfold singularUuidOutcome
    rw [h1]
    show (match parse c with
      | none => some (Sum.inr statusBadRequest)
      | some v => some (Sum.inl v)) = some (Sum.inr statusBadRequest)
    rw [h2]

/-- Witness for the amended C8: the plural conjunct at `"/widgets/yyy/t"`
(parent identifier `"yyy"` malformed) and the singular conjunct at
`"/widgets/yyy"`. -/
theorem malformed_uuid_status_witness :
    pluralPathOutcome sampleParse "/widgets/yyy/t" = .inr statusNotFound
    ∧ singularUuidOutcome sampleParse "/widgets/yyy" =
        some (.inr statusBadRequest) :=
  ⟨malformed_uuid_status_by_handler.1 sampleParse "/widgets/yyy/t" "widgets"
     (by decide),
   malformed_uuid_status_by_handler.2 sampleParse "/widgets/yyy" "yyy"
     (by decide) (by decide)⟩

/-- C9 counterexample: `CollFilter.pop` does not return a nil error for
every request, because for some requests it does not return at all: on a
query whose `sort` value is `"x"` the slice `ss[:4]` inside `popSort`
panics. -/
theorem pop_not_total :
    pop [("sort", ["x"])] = none := by
  decide

/-- C9 (corrected, amended): whenever `CollFilter.pop` returns, its error
is nil — its only `return` statement is `return nil` — so the
`"error parsing collection filters"` bad-request branch in the plural GET
handler is unreachable; however `pop` does not return for every request
(it panics on filter values shorter than the comparator prefixes, per the
counterexample). -/
theorem pop_error_always_nil :
    (∀ (q : Query) (cf : CollFilter) (e : Option Unit),
        pop q = some (cf, e) → e = none)
    ∧ (∀ (q : Query) (b : Bool),
        pluralGetFilterBranch q = some b → b = false) := by
  have h1 : ∀ (q : Query) (cf : CollFilter) (e : Option Unit),
      pop q = some (cf, e) → e = none := by
    intro q cf e h
    unfold pop at h
    cases hp : popPage (qGet q "page") with
    | none => simp only [hp] at h; exact Option.noConfusion h
    | some pageField =>
      simp only [hp] at h
      cases hc : popCount (qGet (qDelete q "page") "count") with
      | none => simp only [hc] at h; exact Option.noConfusion h
      | some countField =>
        simp only [hc] at h
        cases hs : popSortField
            (qGet (qDelete (qDelete q "page") "count") "sort") with
        | none => simp only [hs] at h; exact Option.noConfusion h
        | some sortList =>
          simp only [hs] at h
          cases hf : popFilter
              (qDelete (qDelete (qDelete q "page") "count") "sort") with
          | none => simp only [hf] at h; exact Option.noConfusion h
          | some pfs =>
            simp only [hf, Option.some.injEq, Prod.mk.injEq] at h
            exact h.2.symm
  refine ⟨h1, ?_⟩
  intro q b h
  unfold pluralGetFilterBranch at h
  cases hq : pop q with
  | none => rw [hq, Option.map_none'] at h; exact Option.noConfusion h
  | some r =>
    rw [hq, Option.map_some', Option.some.injEq] at h
    have he : r.2 = none := h1 q r.1 r.2 (by rw [hq])
    rw [← h, he]
    rfl

/-- Witness for the amended C9 at the concrete query `page=3`. -/
theorem pop_error_always_nil_witness :
    pop [("page", ["3"])] =
        some ({ Page := some 3, Count := none, «Sort» := [],
                PropFilters := [] }, none)
    ∧ (none : Option Unit) = none
    ∧ false = false :=
  ⟨by decide,
   pop_error_always_nil.1 [("page", ["3"])]
     { Page := some 3, Count := none, «Sort» := [], PropFilters := [] }
     none (by decide),
   pop_error_always_nil.2 [("page", ["3"])] false (by decide)⟩

end EntityColl
